import Mathlib

/-!
Shallow embedding of `src/correrio.py` (CadernoPTM): a Flask CRUD service over
two JSON-file stores ("registros" shipment records and "referencias" lookup
entries) plus an uploads directory.  Each HTTP handler is modelled as a pure
function from the loaded store (and the request payload) to a result holding
the response status, the store contents after the request (the persisted file),
the returned id when any, and whether `save_*` was called.
-/

namespace CadernoPTM

/-- JSON scalar values as they reach the handlers via `request.get_json()`:
the claims only need numbers and strings (the types an `id` field takes). -/
inductive JVal where
  | jnum : Int → JVal
  | jstr : String → JVal
deriving Repr, DecidableEq

/-- Python `str(v)` on a JSON scalar. -/
def pyStr : JVal → String
  | .jnum n => toString n
  | .jstr s => s

/-- Python `v != '0'` — comparing a non-string against a string is `True`. -/
def pyNeZeroStr : JVal → Bool
  | .jnum _ => true
  | .jstr s => s != "0"

/-- Python `s == v` for a string `s` and JSON scalar `v`: a string never
equals a number. Models line 124: `str(reg['id']) == data['id']`. -/
def strEqJVal (s : String) : JVal → Bool
  | .jnum _ => false
  | .jstr t => s == t

/-- A shipment record, with exactly the fields the creation path at
lines 149-166 of `correrio.py` writes. `id` is a JSON scalar: the code
creates integer ids but compares them through `str(...)`. -/
structure Registro where
  id : JVal
  nm_saida : String
  descricao_saida : String
  quantidade_saida : String
  destino_saida : String
  responsavel_entrega : String
  data_doc_saida : String
  deposito_saida : String
  num_doc_saida : String
  item_saida : String
  data_coleta : String
  nome_motorista : String
  nota_fiscal : String
  anexos : List String
deriving Repr, DecidableEq

/-- The JSON payload of `POST /api/registros`.  Optional keys mirror the
`'k' in data` / `data.get(k, default)` accesses; the creation-only fields are
accessed directly (`data['nm_saida']`, ...) and hence required. -/
structure RegPost where
  idField : Option JVal
  nm_saida : String
  descricao_saida : String
  quantidade_saida : String
  destino_saida : String
  responsavel_entrega : String
  data_doc_saida : String
  deposito_saida : String
  num_doc_saida : String
  item_saida : String
  data_coleta : Option String
  nome_motorista : Option String
  nota_fiscal : Option String
  anexos : Option (List String)
deriving Repr, DecidableEq

/-- Lines 126-132: overwrite the confirmation fields of a matched record;
`anexos` only when the key is present in the payload. -/
def applyUpdate (d : RegPost) (r : Registro) : Registro :=
  { r with
    data_coleta := d.data_coleta.getD "Pendente"
    nome_motorista := d.nome_motorista.getD ""
    nota_fiscal := d.nota_fiscal.getD ""
    anexos := match d.anexos with
      | some a => a
      | none => r.anexos }

/-- Lines 123-135: scan `registros` for the first record with
`str(reg['id']) == data['id']`, update it in place; `none` when no record
matches (line 137 then returns 404). -/
def updateFirst (v : JVal) (d : RegPost) : List Registro → Option (List Registro)
  | [] => none
  | r :: rs =>
    if strEqJVal (pyStr r.id) v then some (applyUpdate d r :: rs)
    else (updateFirst v d rs).map (r :: ·)

/-- The list `[r['id'] for r in registros]` read as Python ints; `none` when
some stored id is not a number, in which case `max(...) + 1` at line 148
raises a `TypeError` (surfaced by Flask as a 500). -/
def idsAsInts : List Registro → Option (List Int)
  | [] => some []
  | r :: rs =>
    match r.id with
    | .jnum n => (idsAsInts rs).map (n :: ·)
    | .jstr _ => none

/-- Python `max(ids or [0])`: the maximum of the list, `0` when empty. -/
def listMax : List Int → Int
  | [] => 0
  | x :: xs => xs.foldl max x

/-- The dict literal of lines 149-166: a fresh record from the payload with
`data_coleta = 'Pendente'`, empty confirmation fields and no attachments. -/
def mkRegistro (novoId : Int) (d : RegPost) : Registro where
  id := .jnum novoId
  nm_saida := d.nm_saida
  descricao_saida := d.descricao_saida
  quantidade_saida := d.quantidade_saida
  destino_saida := d.destino_saida
  responsavel_entrega := d.responsavel_entrega
  data_doc_saida := d.data_doc_saida
  deposito_saida := d.deposito_saida
  num_doc_saida := d.num_doc_saida
  item_saida := d.item_saida
  data_coleta := "Pendente"
  nome_motorista := ""
  nota_fiscal := ""
  anexos := []

/-- Result of a `/api/registros` request: HTTP status, the persisted list
after the request, the id returned in the body (creation only), and whether
`save_data` ran. -/
structure RegsResult where
  status : Nat
  registros : List Registro
  returnedId : Option Int
  saved : Bool
deriving Repr, DecidableEq

/-- Line 143: `(r['num_doc_saida'], r['item_saida']) == key`. -/
def pairMatches (d : RegPost) (r : Registro) : Bool :=
  r.num_doc_saida == d.num_doc_saida && r.item_saida == d.item_saida

/-- Lines 139-169, the creation path: duplicate-pair check, then
`novo_id = max([r['id'] for r in registros] or [0]) + 1`, append, save. -/
def createRegistro (regs : List Registro) (d : RegPost) : RegsResult :=
  if regs.any (pairMatches d) then
    ⟨409, regs, none, false⟩
  else
    match idsAsInts regs with
    | none => ⟨500, regs, none, false⟩
    | some ids =>
      let novoId := listMax ids + 1
      ⟨201, regs ++ [mkRegistro novoId d], some novoId, true⟩

/-- Lines 118-169: dispatch of `POST /api/registros`.  Line 121:
`'id' in data and data['id'] != '0'` selects the update path; otherwise the
creation path runs. -/
def handlePost (regs : List Registro) (d : RegPost) : RegsResult :=
  match d.idField with
  | some v =>
    if pyNeZeroStr v then
      match updateFirst v d regs with
      | some regs2 => ⟨200, regs2, none, true⟩
      | none => ⟨404, regs, none, false⟩
    else createRegistro regs d
  | none => createRegistro regs d

/-- The HTTP method (with payload for POST) of a `/api/registros` request. -/
inductive RegMethod where
  | get
  | post (d : RegPost)
  | del
deriving Repr

/-- Lines 111-175, `handle_registros`: GET lists, POST creates or updates,
DELETE is unimplemented (501). -/
def handle_registros (regs : List Registro) (m : RegMethod) : RegsResult :=
  match m with
  | .get => ⟨200, regs, none, false⟩
  | .post d => handlePost regs d
  | .del => ⟨501, regs, none, false⟩

/-- A reference entry: a unique key `nm` plus opaque descriptive payload. -/
structure Referencia where
  nm : String
  descricao : String
deriving Repr, DecidableEq

/-- Python dict insertion keyed on `nm` (`nm_to_update[ref['nm']] = ref`):
replace the first entry with the same key in place, else append at the end.
Since the code always keys an entry by its own `nm`, the dict is represented
directly as its value list. -/
def dictIns : List Referencia → Referencia → List Referencia
  | [], v => [v]
  | r :: rs, v => if r.nm == v.nm then v :: rs else r :: dictIns rs v

/-- Fold `dictIns` over a batch, as the loop at lines 195-196 does. -/
def upsertAll (m : List Referencia) (refs : List Referencia) : List Referencia :=
  refs.foldl dictIns m

/-- Result of a `/api/referencias` request. -/
structure RefsResult where
  status : Nat
  referencias : List Referencia
  saved : Bool
deriving Repr, DecidableEq

/-- Lines 188-202, `POST /api/referencias`: with a `referencias` key, build
`{ref['nm']: ref for ref in referencias}` (line 193 — `upsertAll []` on the
stored list), overlay the batch, persist the dict values; without the key,
fall through to line 202's `'Método não permitido'` 405 response. -/
def handle_referencias_post (store : List Referencia)
    (batch : Option (List Referencia)) : RefsResult :=
  match batch with
  | some refs => ⟨200, upsertAll (upsertAll [] store) refs, true⟩
  | none => ⟨405, store, false⟩

/-- Lines 205-216, `DELETE /api/referencias/<nm>`: keep the entries whose
`nm` differs; save and 200 if the list shrank, else 404 without saving. -/
def delete_referencia (store : List Referencia) (nm : String) : RefsResult :=
  let kept := store.filter (fun r => r.nm != nm)
  if kept.length < store.length then ⟨200, kept, true⟩
  else ⟨404, store, false⟩

/-- One entry of the uploads directory as `os.listdir` sees it: a name and
whether it is a regular file (`os.path.isfile`). -/
structure UploadEntry where
  name : String
  isFile : Bool
deriving Repr, DecidableEq

/-- The whole persisted state the service touches: the two JSON stores and
the uploads directory. -/
structure AppState where
  registros : List Registro
  referencias : List Referencia
  uploads : List UploadEntry
deriving Repr, DecidableEq

/-- Lines 222-240, `DELETE /api/reset`: write `[]` to both stores and unlink
every regular file of the uploads directory (non-files are skipped by the
`os.path.isfile` guard), returning 200. -/
def reset_data (s : AppState) : Nat × AppState :=
  (200, { registros := []
          referencias := []
          uploads := s.uploads.filter (fun u => !u.isFile) })

/-- Last element of a list satisfying `p`, if any: the value a sequence of
Python dict assignments with the same key leaves behind. -/
def findLast (p : α → Bool) : List α → Option α
  | [] => none
  | a :: l =>
    match findLast p l with
    | some b => some b
    | none => if p a then some a else none

/-- The fields of a record the update path never writes. -/
def frameEq (a b : Registro) : Prop :=
  a.id = b.id ∧ a.nm_saida = b.nm_saida ∧ a.descricao_saida = b.descricao_saida ∧
  a.quantidade_saida = b.quantidade_saida ∧ a.destino_saida = b.destino_saida ∧
  a.responsavel_entrega = b.responsavel_entrega ∧ a.data_doc_saida = b.data_doc_saida ∧
  a.deposito_saida = b.deposito_saida ∧ a.num_doc_saida = b.num_doc_saida ∧
  a.item_saida = b.item_saida

/-- The compound keys of a store, in order. -/
def pairsOf (regs : List Registro) : List (String × String) :=
  regs.map (fun r => (r.num_doc_saida, r.item_saida))

theorem applyUpdate_frameEq (d : RegPost) (r : Registro) :
    frameEq r (applyUpdate d r) :=
  ⟨rfl, rfl, rfl, rfl, rfl, rfl, rfl, rfl, rfl, rfl⟩

theorem updateFirst_eq_none {v : JVal} {d : RegPost} :
    ∀ {regs : List Registro}, (∀ r ∈ regs, strEqJVal (pyStr r.id) v = false) →
      updateFirst v d regs = none
  | [], _ => rfl
  | r :: rs, h => by
    have hr := h r (List.mem_cons_self r rs)
    have hrs : updateFirst v d rs = none :=
      updateFirst_eq_none (fun x hx => h x (List.mem_cons_of_mem r hx))
    simp [updateFirst, hr, hrs]

theorem updateFirst_some {v : JVal} {d : RegPost} :
    ∀ {regs regs2 : List Registro}, updateFirst v d regs = some regs2 →
      ∃ i r, regs[i]? = some r ∧ strEqJVal (pyStr r.id) v = true ∧
        regs2 = regs.set i (applyUpdate d r)
  | [], _, h => by simp [updateFirst] at h
  | r :: rs, regs2, h => by
    by_cases hm : strEqJVal (pyStr r.id) v = true
    · refine ⟨0, r, by simp, hm, ?_⟩
      simp [updateFirst, hm] at h
      simp [← h]
    · simp [updateFirst, hm] at h
      obtain ⟨rs2, hrs2, hcons⟩ := h
      obtain ⟨i, x, hget, hx, hset⟩ := updateFirst_some hrs2
      exact ⟨i + 1, x, by simpa using hget, hx, by simp [← hcons, hset]⟩

theorem updateFirst_none_forall {v : JVal} {d : RegPost} :
    ∀ {regs : List Registro}, updateFirst v d regs = none →
      ∀ r ∈ regs, strEqJVal (pyStr r.id) v = false
  | [], _, r, hr => by simp at hr
  | a :: l, h, r, hr => by
    by_cases ha : strEqJVal (pyStr a.id) v = true
    · simp [updateFirst, ha] at h
    · simp [updateFirst, ha] at h
      rcases List.mem_cons.mp hr with h1 | h1
      · subst h1; simpa using ha
      · exact updateFirst_none_forall h r h1

theorem updateFirst_isSome {v : JVal} {d : RegPost} {regs : List Registro}
    (h : ∃ r ∈ regs, strEqJVal (pyStr r.id) v = true) :
    ∃ regs2, updateFirst v d regs = some regs2 := by
  cases hu : updateFirst v d regs with
  | some regs2 => exact ⟨regs2, rfl⟩
  | none =>
    obtain ⟨r, hr, hmatch⟩ := h
    have := updateFirst_none_forall hu r hr
    exact absurd hmatch (by simp [this])

theorem updateFirst_jnum (k : Int) (d : RegPost) (regs : List Registro) :
    updateFirst (.jnum k) d regs = none :=
  updateFirst_eq_none (fun r _ => by simp [strEqJVal])

theorem pairsOf_updateFirst {v : JVal} {d : RegPost} :
    ∀ {regs regs2 : List Registro}, updateFirst v d regs = some regs2 →
      pairsOf regs2 = pairsOf regs
  | [], _, h => by simp [updateFirst] at h
  | r :: rs, regs2, h => by
    by_cases hm : strEqJVal (pyStr r.id) v = true
    · simp [updateFirst, hm] at h
      simp [← h, pairsOf, applyUpdate]
    · simp [updateFirst, hm] at h
      obtain ⟨rs2, hrs2, hcons⟩ := h
      simp [← hcons, pairsOf]
      exact pairsOf_updateFirst hrs2

/-- A concrete creation payload used to exercise the theorems. -/
def samplePost : RegPost where
  idField := none
  nm_saida := "NM1"
  descricao_saida := "Parafuso"
  quantidade_saida := "10"
  destino_saida := "PTM"
  responsavel_entrega := "Ana"
  data_doc_saida := "2024-01-01"
  deposito_saida := "D01"
  num_doc_saida := "D1"
  item_saida := "1"
  data_coleta := none
  nome_motorista := none
  nota_fiscal := none
  anexos := none

/-- The record the creation path builds from `samplePost` on an empty store. -/
def sampleReg : Registro := mkRegistro 1 samplePost

/-- A concrete update payload targeting the record with id `1`. -/
def updPost : RegPost :=
  { samplePost with idField := some (.jstr "1"), nome_motorista := some "Carlos" }

/-- C1: a creation POST (no `id` key, or `id = '0'`) whose
`(num_doc_saida, item_saida)` pair is fresh, on a store of integer ids,
returns 201 with id `max + 1` (`1` on an empty store) and appends the new
record with `data_coleta = 'Pendente'`, empty `nome_motorista` and
`nota_fiscal`, and `anexos = []`. -/
theorem create_fresh_pair_succeeds (regs : List Registro) (d : RegPost)
    (ids : List Int)
    (hid : d.idField = none ∨ d.idField = some (.jstr "0"))
    (hdup : ∀ r ∈ regs, pairMatches d r = false)
    (hints : idsAsInts regs = some ids) :
    handle_registros regs (.post d) =
      ⟨201, regs ++ [mkRegistro (listMax ids + 1) d], some (listMax ids + 1), true⟩ ∧
    (regs = [] → listMax ids + 1 = 1) ∧
    (mkRegistro (listMax ids + 1) d).data_coleta = "Pendente" ∧
    (mkRegistro (listMax ids + 1) d).nome_motorista = "" ∧
    (mkRegistro (listMax ids + 1) d).nota_fiscal = "" ∧
    (mkRegistro (listMax ids + 1) d).anexos = [] := by
  have hany : regs.any (pairMatches d) = false :=
    List.any_eq_false.mpr (fun r hr => by simp [hdup r hr])
  refine ⟨?_, ?_, rfl, rfl, rfl, rfl⟩
  · rcases hid with h | h <;>
      simp [handle_registros, handlePost, h, pyNeZeroStr, createRegistro, hany, hints]
  · intro hnil
    subst hnil
    simp [idsAsInts] at hints
    subst hints
    rfl

/-- Witness for C1 at an empty store and `samplePost`. -/
theorem create_fresh_pair_succeeds_witness :
    handle_registros [] (.post samplePost) =
      ⟨201, [mkRegistro 1 samplePost], some 1, true⟩ ∧
    (mkRegistro 1 samplePost).data_coleta = "Pendente" := by
  have h := create_fresh_pair_succeeds [] samplePost []
    (Or.inl rfl) (fun r hr => by simp at hr) rfl
  exact ⟨by simpa [listMax] using h.1, h.2.2.1⟩

/-- C2: a creation POST whose `(num_doc_saida, item_saida)` pair is already
present returns 409 and neither changes nor saves the store. -/
theorem create_duplicate_pair_conflict (regs : List Registro) (d : RegPost)
    (hid : d.idField = none ∨ d.idField = some (.jstr "0"))
    (hdup : ∃ r ∈ regs, pairMatches d r = true) :
    handle_registros regs (.post d) = ⟨409, regs, none, false⟩ := by
  have hany : regs.any (pairMatches d) = true := List.any_eq_true.mpr
    (by obtain ⟨r, hr, hp⟩ := hdup; exact ⟨r, hr, by simp [hp]⟩)
  rcases hid with h | h <;>
    simp [handle_registros, handlePost, h, pyNeZeroStr, createRegistro, hany]

/-- Witness for C2: re-posting `samplePost` onto the store `[sampleReg]`. -/
theorem create_duplicate_pair_conflict_witness :
    handle_registros [sampleReg] (.post samplePost) =
      ⟨409, [sampleReg], none, false⟩ :=
  create_duplicate_pair_conflict [sampleReg] samplePost (Or.inl rfl)
    ⟨sampleReg, by simp, by decide⟩

/-- C8: an update POST (non-zero id) matching no stored record under the
`str(reg['id']) == data['id']` comparison returns 404 and neither changes
nor saves the store. -/
theorem update_unknown_id_404 (regs : List Registro) (d : RegPost) (v : JVal)
    (hid : d.idField = some v) (hnz : pyNeZeroStr v = true)
    (hmiss : ∀ r ∈ regs, strEqJVal (pyStr r.id) v = false) :
    handle_registros regs (.post d) = ⟨404, regs, none, false⟩ := by
  have hu := updateFirst_eq_none (v := v) (d := d) hmiss
  simp [handle_registros, handlePost, hid, hnz, hu]

/-- Witness for C8: updating id `"9"` on a store holding only id `1`. -/
theorem update_unknown_id_404_witness :
    handle_registros [sampleReg]
        (.post { samplePost with idField := some (.jstr "9") }) =
      ⟨404, [sampleReg], none, false⟩ :=
  update_unknown_id_404 [sampleReg] _ (.jstr "9") rfl (by decide)
    (fun r hr => by simp at hr; subst hr; decide)

/-- C10: a POST whose `id` is a JSON number (even `0`) takes the update path
(a number compares unequal to the string `'0'`), where
`str(reg['id']) == data['id']` never holds against a non-string, so the
request returns 404 with the store untouched — even if a record with that
numeric id exists. -/
theorem numeric_id_post_always_404 (regs : List Registro) (d : RegPost)
    (k : Int) (hid : d.idField = some (.jnum k)) :
    handle_registros regs (.post d) = ⟨404, regs, none, false⟩ := by
  simp [handle_registros, handlePost, hid, pyNeZeroStr, updateFirst_jnum]

/-- Witness for C10: the store holds the record with id `1`, yet a POST with
the JSON number `1` as id yields 404. -/
theorem numeric_id_post_always_404_witness :
    handle_registros [sampleReg]
        (.post { samplePost with idField := some (.jnum 1) }) =
      ⟨404, [sampleReg], none, false⟩ ∧
    sampleReg.id = .jnum 1 :=
  ⟨numeric_id_post_always_404 [sampleReg] _ 1 rfl, rfl⟩

/-- C3: an update POST (non-zero id) that matches a stored record changes at
most `data_coleta`, `nome_motorista`, `nota_fiscal` and `anexos` of that
record (`anexos` only when the key is in the payload); every other field of
that record and every other record are untouched. -/
theorem update_frame_only_confirmation (regs : List Registro) (d : RegPost)
    (v : JVal) (hid : d.idField = some v) (hnz : pyNeZeroStr v = true)
    (hfound : ∃ r ∈ regs, strEqJVal (pyStr r.id) v = true) :
    ∃ i r, regs[i]? = some r ∧ strEqJVal (pyStr r.id) v = true ∧
      (handle_registros regs (.post d)).status = 200 ∧
      (handle_registros regs (.post d)).saved = true ∧
      (handle_registros regs (.post d)).registros
        = regs.set i (applyUpdate d r) ∧
      frameEq r (applyUpdate d r) ∧
      (d.anexos = none → (applyUpdate d r).anexos = r.anexos) ∧
      ∀ j, j ≠ i →
        (handle_registros regs (.post d)).registros[j]? = regs[j]? := by
  obtain ⟨regs2, hu⟩ := updateFirst_isSome (d := d) hfound
  obtain ⟨i, r, hget, hmatch, hset⟩ := updateFirst_some hu
  have hres : handle_registros regs (.post d) = ⟨200, regs2, none, true⟩ := by
    simp [handle_registros, handlePost, hid, hnz, hu]
  refine ⟨i, r, hget, hmatch, by simp [hres], by simp [hres],
    by simp [hres, hset], applyUpdate_frameEq d r, ?_, ?_⟩
  · intro hnone; simp [applyUpdate, hnone]
  · intro j hj
    rw [hres]
    simp only [hset]
    exact List.getElem?_set_ne (Ne.symm hj)

/-- Witness for C3: updating id `"1"` on the one-record store. -/
theorem update_frame_only_confirmation_witness :
    ∃ i r, ([sampleReg])[i]? = some r ∧
      strEqJVal (pyStr r.id) (.jstr "1") = true ∧
      (handle_registros [sampleReg] (.post updPost)).status = 200 ∧
      (handle_registros [sampleReg] (.post updPost)).saved = true ∧
      (handle_registros [sampleReg] (.post updPost)).registros
        = [sampleReg].set i (applyUpdate updPost r) ∧
      frameEq r (applyUpdate updPost r) ∧
      (updPost.anexos = none → (applyUpdate updPost r).anexos = r.anexos) ∧
      ∀ j, j ≠ i →
        (handle_registros [sampleReg] (.post updPost)).registros[j]?
          = ([sampleReg])[j]? :=
  update_frame_only_confirmation [sampleReg] updPost (.jstr "1") rfl
    (by decide) ⟨sampleReg, by simp, by decide⟩

theorem createRegistro_nodup {regs : List Registro} {d : RegPost}
    (h : (pairsOf regs).Nodup) :
    (pairsOf (createRegistro regs d).registros).Nodup := by
  unfold createRegistro
  by_cases hany : regs.any (pairMatches d) = true
  · simpa [hany] using h
  · have hf : regs.any (pairMatches d) = false := by simpa using hany
    cases hi : idsAsInts regs with
    | none => simpa [hf, hi] using h
    | some ids =>
      have hpairs : pairsOf (regs ++ [mkRegistro (listMax ids + 1) d])
          = pairsOf regs ++ [(d.num_doc_saida, d.item_saida)] := by
        simp [pairsOf, mkRegistro]
      simp only [hf, hi]
      simp only [Bool.false_eq_true, if_false]
      refine hpairs ▸ List.nodup_append.mpr ⟨h, List.nodup_singleton _, ?_⟩
      intro p hp hp1
      simp at hp1
      subst hp1
      obtain ⟨r, hr, hpair⟩ := List.mem_map.mp hp
      have hpm := List.any_eq_false.mp hf r hr
      simp [pairMatches] at hpm
      simp [Prod.ext_iff] at hpair
      exact absurd hpair.2 (hpm hpair.1)

/-- C4: every `/api/registros` operation — GET, creation POST, update POST,
DELETE — preserves the invariant that no two records share the same
`(num_doc_saida, item_saida)` pair. -/
theorem pair_invariant_preserved (regs : List Registro) (m : RegMethod)
    (h : (pairsOf regs).Nodup) :
    (pairsOf (handle_registros regs m).registros).Nodup := by
  cases m with
  | get => simpa [handle_registros] using h
  | del => simpa [handle_registros] using h
  | post d =>
    show (pairsOf (handlePost regs d).registros).Nodup
    unfold handlePost
    cases hid : d.idField with
    | none => exact createRegistro_nodup h
    | some v =>
      by_cases hnz : pyNeZeroStr v = true
      · cases hu : updateFirst v d regs with
        | some regs2 =>
          simp only [hnz, if_true, hu]
          rw [pairsOf_updateFirst hu]
          exact h
        | none => simpa [hnz, hu] using h
      · have hnz2 : pyNeZeroStr v = false := by simpa using hnz
        simp only [hnz2, Bool.false_eq_true, if_false]
        exact createRegistro_nodup h

/-- Witness for C4: the creation POST on the singleton store keeps the
compound keys pairwise distinct. -/
theorem pair_invariant_preserved_witness :
    (pairsOf (handle_registros [sampleReg]
        (.post { samplePost with num_doc_saida := "D2" })).registros).Nodup :=
  pair_invariant_preserved [sampleReg]
    (.post { samplePost with num_doc_saida := "D2" }) (by decide)

theorem find?_dictIns (k : String) (v : Referencia) :
    ∀ m : List Referencia,
      (dictIns m v).find? (fun r => r.nm == k)
        = if v.nm == k then some v else m.find? (fun r => r.nm == k)
  | [] => by
    by_cases h : (v.nm == k) = true <;> simp [dictIns, h]
  | r :: rs => by
    by_cases hrv : (r.nm == v.nm) = true
    · have hrv2 : r.nm = v.nm := by simpa using hrv
      by_cases hvk : (v.nm == k) = true
      · simp [dictIns, hrv, hvk]
      · have hrk : (r.nm == k) = false := by
          simp only [hrv2]; simpa using hvk
        simp [dictIns, hrv, hvk, hrk]
    · have ih := find?_dictIns k v rs
      by_cases hvk : (v.nm == k) = true
      · have hvk2 : v.nm = k := by simpa using hvk
        have hrk : (r.nm == k) = false := by
          rw [← hvk2]; simpa using hrv
        simp [dictIns, hrv, hrk, ih, hvk]
      · by_cases hrk : (r.nm == k) = true
        · simp [dictIns, hrv, hrk, ih, hvk]
        · simp [dictIns, hrv, hrk, ih, hvk]

theorem find?_upsertAll (k : String) :
    ∀ (refs m : List Referencia),
      (upsertAll m refs).find? (fun r => r.nm == k)
        = match findLast (fun r => r.nm == k) refs with
          | some r => some r
          | none => m.find? (fun r => r.nm == k)
  | [], m => by simp [upsertAll, findLast]
  | r :: rs, m => by
    have ih := find?_upsertAll k rs (dictIns m r)
    have hstep : upsertAll m (r :: rs) = upsertAll (dictIns m r) rs := rfl
    rw [hstep, ih, find?_dictIns k r m]
    cases hf : findLast (fun x => x.nm == k) rs with
    | some b => simp [findLast, hf]
    | none =>
      by_cases hrk : (r.nm == k) = true <;> simp [findLast, hf, hrk]

theorem findLast_eq_none {α : Type} {p : α → Bool} :
    ∀ {l : List α}, (∀ a ∈ l, p a = false) → findLast p l = none
  | [], _ => rfl
  | a :: l, h => by
    have hl := findLast_eq_none (fun x hx => h x (List.mem_cons_of_mem a hx))
    simp [findLast, hl, h a (List.mem_cons_self a l)]

theorem findLast_eq_find? (k : String) :
    ∀ {store : List Referencia}, (store.map (fun r => r.nm)).Nodup →
      findLast (fun r => r.nm == k) store
        = store.find? (fun r => r.nm == k)
  | [], _ => rfl
  | a :: l, h => by
    obtain ⟨hnotin, h2⟩ := List.nodup_cons.mp h
    have ih := findLast_eq_find? k h2
    by_cases hak : (a.nm == k) = true
    · have hak2 : a.nm = k := by simpa using hak
      have hall : ∀ x ∈ l, (x.nm == k) = false := by
        intro x hx
        have hxk : x.nm ≠ k := by
          intro he
          apply hnotin
          have hmem : x.nm ∈ l.map (fun r => r.nm) :=
            List.mem_map_of_mem (fun r => r.nm) hx
          rwa [he, ← hak2] at hmem
        simp [hxk]
      simp [findLast, findLast_eq_none hall, hak]
    · have hak2 : (a.nm == k) = false := by simpa using hak
      cases hf : findLast (fun r => r.nm == k) l with
      | some b => simp [findLast, hf, hak2, ← ih]
      | none => simp [findLast, hf, hak2, ← ih]

/-- C5: the bulk upsert of `POST /api/referencias` is pointwise: a key in
the batch ends up mapped to exactly its (last) incoming entry; a key not in
the batch keeps exactly its stored entry. -/
theorem bulk_upsert_pointwise (store batch : List Referencia)
    (hnd : (store.map (fun r => r.nm)).Nodup) :
    (handle_referencias_post store (some batch)).status = 200 ∧
    (handle_referencias_post store (some batch)).saved = true ∧
    (∀ k r, findLast (fun x => x.nm == k) batch = some r →
      (handle_referencias_post store (some batch)).referencias.find?
        (fun x => x.nm == k) = some r) ∧
    (∀ k, findLast (fun x => x.nm == k) batch = none →
      (handle_referencias_post store (some batch)).referencias.find?
        (fun x => x.nm == k) = store.find? (fun x => x.nm == k)) := by
  have hres : (handle_referencias_post store (some batch)).referencias
      = upsertAll (upsertAll [] store) batch := rfl
  refine ⟨rfl, rfl, ?_, ?_⟩
  · intro k r hr
    rw [hres, find?_upsertAll k batch (upsertAll [] store), hr]
  · intro k hnone
    have hbase2 : (upsertAll [] store).find? (fun x => x.nm == k)
        = store.find? (fun x => x.nm == k) := by
      rw [find?_upsertAll k store [], findLast_eq_find? k hnd]
      cases store.find? (fun x => x.nm == k) <;> simp
    rw [hres, find?_upsertAll k batch (upsertAll [] store), hnone]
    exact hbase2

/-- Concrete reference entries used by the witnesses. -/
def refA : Referencia := ⟨"A", "x"⟩

def refA2 : Referencia := ⟨"A", "y"⟩

def refB : Referencia := ⟨"B", "z"⟩

/-- Witness for C5 on a one-entry store and a two-entry batch. -/
theorem bulk_upsert_pointwise_witness :
    (handle_referencias_post [refA] (some [refA2, refB])).referencias.find?
        (fun x => x.nm == "A") = some refA2 ∧
    (handle_referencias_post [refA] (some [refA2, refB])).referencias.find?
        (fun x => x.nm == "C")
      = ([refA] : List Referencia).find? (fun x => x.nm == "C") := by
  have h := bulk_upsert_pointwise [refA] [refA2, refB] (by decide)
  exact ⟨h.2.2.1 "A" refA2 (by decide), h.2.2.2 "C" (by decide)⟩

/-- C6 (corrected): with a POST body lacking the `referencias` key, the code
falls through to the final `'Método não permitido'` branch and answers 405
(not 400), with the stored list untouched and unsaved. -/
theorem referencias_missing_key_405 (store : List Referencia) :
    handle_referencias_post store none = ⟨405, store, false⟩ := rfl

/-- Counterexample to C6 as stated: on an empty store, a POST without the
`referencias` key yields status 405, which is not the claimed 400. -/
theorem referencias_missing_key_not_400 :
    (handle_referencias_post [] none).status = 405 ∧
    ¬((handle_referencias_post [] none).status = 400) := by decide

theorem filter_ne_length_lt {nm : String} :
    ∀ {store : List Referencia}, store.any (fun r => r.nm == nm) = true →
      (store.filter (fun r => r.nm != nm)).length < store.length
  | [], h => by simp at h
  | a :: l, h => by
    by_cases ha : (a.nm == nm) = true
    · have han : (a.nm != nm) = false := by simp [bne, ha]
      simp only [List.filter_cons, han, Bool.false_eq_true, if_false,
        List.length_cons]
      exact Nat.lt_succ_of_le (List.length_filter_le _ _)
    · have ha2 : (a.nm == nm) = false := by simpa using ha
      have hl : l.any (fun r => r.nm == nm) = true := by
        simpa [List.any_cons, ha2] using h
      have han : (a.nm != nm) = true := by simp [bne, ha2]
      simp only [List.filter_cons, han, if_true, List.length_cons]
      exact Nat.succ_lt_succ (filter_ne_length_lt hl)

/-- C7: `DELETE /api/referencias/<nm>` removes exactly the entries whose
`nm` equals the parameter: when one matched, the filtered list is persisted
with 200; when none matched, 404 and the stored list is neither changed nor
re-saved. -/
theorem delete_referencia_exact (store : List Referencia) (nm : String) :
    (store.any (fun r => r.nm == nm) = true →
      delete_referencia store nm
        = ⟨200, store.filter (fun r => r.nm != nm), true⟩) ∧
    (store.any (fun r => r.nm == nm) = false →
      delete_referencia store nm = ⟨404, store, false⟩) := by
  constructor
  · intro h
    have hlt := filter_ne_length_lt h
    simp [delete_referencia, hlt]
  · intro h
    have hall : ∀ r ∈ store, (r.nm != nm) = true := by
      intro r hr
      have := List.any_eq_false.mp h r hr
      simp [bne]
      simpa using this
    have hfe : store.filter (fun r => r.nm != nm) = store :=
      List.filter_eq_self.mpr hall
    simp [delete_referencia, hfe]

/-- Witness for C7: deleting `"A"` from `[refA]` persists the empty list;
deleting `"B"` answers 404 and keeps the store. -/
theorem delete_referencia_exact_witness :
    delete_referencia [refA] "A" = ⟨200, [], true⟩ ∧
    delete_referencia [refA] "B" = ⟨404, [refA], false⟩ := by
  have h1 := (delete_referencia_exact [refA] "A").1 (by decide)
  have h2 := (delete_referencia_exact [refA] "B").2 (by decide)
  exact ⟨h1.trans (by decide), h2⟩

theorem no_files_left :
    ∀ l : List UploadEntry,
      ((l.filter (fun u => !u.isFile)).filter (fun u => u.isFile)) = []
  | [] => rfl
  | u :: l => by
    by_cases hu : u.isFile = true <;>
      simp [List.filter_cons, hu, no_files_left l]

/-- C9: a reset always returns 200, empties both JSON stores and leaves no
regular file in the uploads directory, whatever the prior state. -/
theorem reset_clears_everything (s : AppState) :
    (reset_data s).1 = 200 ∧
    (reset_data s).2.registros = [] ∧
    (reset_data s).2.referencias = [] ∧
    (reset_data s).2.uploads.filter (fun u => u.isFile) = [] :=
  ⟨rfl, rfl, rfl, no_files_left s.uploads⟩

end CadernoPTM
